import Mathlib

/-!
Verification of the GPU image-derivative pipeline of `image_ops.h`
(`src/worker/image-worker/cuda/image_ops.h`).

The repository ships only the C header: the policy constants for the three
quality tiers and the declarations of the public operations.  Constants and
interface shapes below are embedded directly from the header; the kernel and
pipeline bodies are not in the repository, so they are modelled from the
specification (each such definition carries a doc comment beginning
`Modelled from the spec:`).
-/

namespace ImageOps

/-! ## Policy constants, from `image_ops.h` lines 15-26 -/

def THUMBNAIL_MAX_WIDTH : Nat := 128

def THUMBNAIL_WEBP_QUALITY : Nat := 30

def BLUR_MAX_WIDTH : Nat := 320

def BLUR_WEBP_QUALITY : Nat := 50

def BLUR_RADIUS : Nat := 5

def LOW_QUALITY_MAX_WIDTH : Nat := 640

def LOW_QUALITY_WEBP_QUALITY : Nat := 65

/-- The three quality tiers of the pipeline (header lines 42-56: one public
operation per tier). -/
inductive Tier
  | Thumbnail
  | Blur
  | LowQuality
deriving DecidableEq

/-- A tier's fixed policy record: max dimension, blur radius, encode quality
(spec section 3, "Quality Tier"). -/
structure TierPolicy where
  max_dimension : Nat
  blur_radius : Nat
  target_encode_quality : Nat
deriving DecidableEq

/-- The policy table, from the header constants.  The header gives a blur
radius only for the Blur tier (`BLUR_RADIUS`, line 22); the Thumbnail and
LowQuality operations perform no blur, so their radius is 0. -/
def tierPolicy : Tier → TierPolicy
  | .Thumbnail => ⟨THUMBNAIL_MAX_WIDTH, 0, THUMBNAIL_WEBP_QUALITY⟩
  | .Blur => ⟨BLUR_MAX_WIDTH, BLUR_RADIUS, BLUR_WEBP_QUALITY⟩
  | .LowQuality => ⟨LOW_QUALITY_MAX_WIDTH, 0, LOW_QUALITY_WEBP_QUALITY⟩

/-! ## Resample dimension computation -/

/-- Round-to-nearest (half up) division `a / b`. -/
def roundDiv (a b : Nat) : Nat := (2 * a + b) / (2 * b)

/-- Modelled from the spec: the Resample Kernel body is not in the
repository.  Spec section 4.2: output width/height are scaled so that
`max(output_width, output_height) == target_max_dimension`, preserving the
source aspect ratio, rounding to nearest integer pixel with a floor of 1px
on each axis. -/
def resampleDims (w h t : Nat) : Nat × Nat :=
  if h ≤ w then (t, max 1 (roundDiv (h * t) w))
  else (max 1 (roundDiv (w * t) h), t)

theorem roundDiv_mul_self (h w : Nat) (hw : 0 < w) : roundDiv (h * w) w = h := by
  unfold roundDiv
  have h1 : 2 * (h * w) + w = (2 * h + 1) * w := by ring
  rw [h1, Nat.mul_comm (2 * h + 1) w, Nat.mul_comm 2 w, Nat.mul_div_mul_left _ _ hw]
  omega

theorem roundDiv_le_of_le {a c b : Nat} (hb : 0 < b) (h : a ≤ c * b) : roundDiv a b ≤ c := by
  unfold roundDiv
  have h1 : 2 * a + b ≤ (2 * c + 1) * b := by nlinarith
  calc (2 * a + b) / (2 * b) ≤ ((2 * c + 1) * b) / (2 * b) := Nat.div_le_div_right h1
    _ = c := by
        rw [Nat.mul_comm (2 * c + 1) b, Nat.mul_comm 2 b, Nat.mul_div_mul_left _ _ hb]
        omega

theorem roundDiv_mono {a a' b : Nat} (h : a ≤ a') : roundDiv a b ≤ roundDiv a' b :=
  Nat.div_le_div_right (by omega)

/-- The rounded quotient is within one of the exact quotient, even after the
floor at 1: `|max 1 (roundDiv a w) * w - a| ≤ w`. -/
theorem roundDiv_aspect (a w : Nat) (hw : 0 < w) :
    (((max 1 (roundDiv a w) : Nat) : Int) * w - a ≤ w) ∧
      ((a : Int) - ((max 1 (roundDiv a w) : Nat) : Int) * w ≤ w) := by
  have key : ∀ q : Nat, 2 * w * q ≤ 2 * a + w → 2 * a + w < 2 * w * q + 2 * w →
      (((max 1 q : Nat) : Int) * w - a ≤ w) ∧ ((a : Int) - ((max 1 q : Nat) : Int) * w ≤ w) := by
    intro q h1 h2
    rcases Nat.eq_zero_or_pos q with h0 | hpos
    · subst h0
      have ha : 2 * a < w := by omega
      have hm : (max 1 0 : Nat) = 1 := by decide
      rw [hm]
      push_cast
      omega
    · rw [max_eq_right hpos]
      have h1x : (2 : Int) * w * q ≤ 2 * a + w := by exact_mod_cast h1
      have h2x : (2 : Int) * a + w < 2 * w * q + 2 * w := by exact_mod_cast h2
      constructor
      · nlinarith
      · nlinarith
  unfold roundDiv
  have hq := Nat.div_add_mod (2 * a + w) (2 * w)
  have hr : (2 * a + w) % (2 * w) < 2 * w := Nat.mod_lt _ (by omega)
  have hle : 2 * w * ((2 * a + w) / (2 * w)) ≤ 2 * a + w := by
    conv_rhs => rw [← hq]
    exact Nat.le_add_right _ _
  have hlt : 2 * a + w < 2 * w * ((2 * a + w) / (2 * w)) + 2 * w := by
    conv_lhs => rw [← hq]
    exact Nat.add_lt_add_left hr _
  exact key ((2 * a + w) / (2 * w)) hle hlt

/-- Both components of `resampleDims` are at least 1 when the target is. -/
theorem resampleDims_pos (w h t : Nat) (ht : 1 ≤ t) :
    1 ≤ (resampleDims w h t).1 ∧ 1 ≤ (resampleDims w h t).2 := by
  unfold resampleDims
  split <;> simp <;> omega

/-- The larger output axis hits exactly the target dimension. -/
theorem resampleDims_max (w h t : Nat) (hw : 0 < w) (hh : 0 < h) (ht : 1 ≤ t) :
    max (resampleDims w h t).1 (resampleDims w h t).2 = t := by
  unfold resampleDims
  split
  · rename_i hle
    have h1 : roundDiv (h * t) w ≤ t := roundDiv_le_of_le hw (by nlinarith)
    simp only
    omega
  · rename_i hlt
    have hwh : w ≤ h := by omega
    have h1 : roundDiv (w * t) h ≤ t := roundDiv_le_of_le hh (by nlinarith)
    simp only
    omega

/-- Monotonicity of the output dimensions in the target dimension. -/
theorem resampleDims_mono (w h t u : Nat) (h12 : t ≤ u) :
    (resampleDims w h t).1 ≤ (resampleDims w h u).1 ∧
      (resampleDims w h t).2 ≤ (resampleDims w h u).2 := by
  unfold resampleDims
  split
  · have := roundDiv_mono (b := w) (Nat.mul_le_mul_left h h12)
    simp only
    omega
  · have := roundDiv_mono (b := h) (Nat.mul_le_mul_left w h12)
    simp only
    omega

/-- Downscale: when the target does not exceed the larger source axis, the
output dimensions do not exceed the source dimensions. -/
theorem resampleDims_le_input (w h t : Nat) (hw : 0 < w) (hh : 0 < h)
    (ht : t ≤ max w h) : (resampleDims w h t).1 ≤ w ∧ (resampleDims w h t).2 ≤ h := by
  unfold resampleDims
  split
  · rename_i hle
    have htw : t ≤ w := by omega
    have h1 : roundDiv (h * t) w ≤ h := roundDiv_le_of_le hw (Nat.mul_le_mul_left h htw)
    simp only
    omega
  · rename_i hgt
    have hth : t ≤ h := by omega
    have h1 : roundDiv (w * t) h ≤ w := roundDiv_le_of_le hh (Nat.mul_le_mul_left w hth)
    simp only
    omega

/-- C3: the fixed tier policy records satisfy the strict total order
Thumbnail < Blur < LowQuality in both max_dimension (128 < 320 < 640) and
target encode quality (30 < 50 < 65), and the blur radius is zero for every
tier except Blur, where it is positive (5). -/
theorem tierPolicy_strict_order :
    (tierPolicy .Thumbnail).max_dimension < (tierPolicy .Blur).max_dimension ∧
    (tierPolicy .Blur).max_dimension < (tierPolicy .LowQuality).max_dimension ∧
    (tierPolicy .Thumbnail).target_encode_quality < (tierPolicy .Blur).target_encode_quality ∧
    (tierPolicy .Blur).target_encode_quality < (tierPolicy .LowQuality).target_encode_quality ∧
    (tierPolicy .Thumbnail).blur_radius = 0 ∧
    (tierPolicy .LowQuality).blur_radius = 0 ∧
    0 < (tierPolicy .Blur).blur_radius := by
  decide

/-- C2: for every raw-pixel input image (positive width and height) and every
tier, the resample stage produces output dimensions whose larger axis equals
the tier's max_dimension, each axis is floored at 1px, and the source aspect
ratio is preserved to within 1px rounding: the scaled minor axis satisfies
`|out_minor * major - minor * t| ≤ major`, i.e. it is within one pixel of the
exact aspect-preserving value. -/
theorem resample_dims_spec (w h : Nat) (tier : Tier) (hw : 0 < w) (hh : 0 < h) :
    max (resampleDims w h (tierPolicy tier).max_dimension).1
        (resampleDims w h (tierPolicy tier).max_dimension).2
      = (tierPolicy tier).max_dimension ∧
    1 ≤ (resampleDims w h (tierPolicy tier).max_dimension).1 ∧
    1 ≤ (resampleDims w h (tierPolicy tier).max_dimension).2 ∧
    (h ≤ w →
      ((resampleDims w h (tierPolicy tier).max_dimension).2 : Int) * w
          - h * (tierPolicy tier).max_dimension ≤ w ∧
      ((h : Int) * (tierPolicy tier).max_dimension)
          - (resampleDims w h (tierPolicy tier).max_dimension).2 * w ≤ w) ∧
    (w < h →
      ((resampleDims w h (tierPolicy tier).max_dimension).1 : Int) * h
          - w * (tierPolicy tier).max_dimension ≤ h ∧
      ((w : Int) * (tierPolicy tier).max_dimension)
          - (resampleDims w h (tierPolicy tier).max_dimension).1 * h ≤ h) := by
  have ht : 1 ≤ (tierPolicy tier).max_dimension := by cases tier <;> decide
  refine ⟨resampleDims_max w h _ hw hh ht, (resampleDims_pos w h _ ht).1,
    (resampleDims_pos w h _ ht).2, ?_, ?_⟩
  · intro hle
    have := roundDiv_aspect (h * (tierPolicy tier).max_dimension) w hw
    unfold resampleDims
    rw [if_pos hle]
    simpa using this
  · intro hgt
    have := roundDiv_aspect (w * (tierPolicy tier).max_dimension) h hh
    unfold resampleDims
    rw [if_neg (by omega)]
    simpa using this

/-- Witness for C2 at a concrete 4000x3000 source and the Thumbnail tier. -/
theorem resample_dims_spec_witness :
    0 < 4000 ∧ 0 < 3000 ∧
    (max (resampleDims 4000 3000 (tierPolicy .Thumbnail).max_dimension).1
        (resampleDims 4000 3000 (tierPolicy .Thumbnail).max_dimension).2
      = (tierPolicy .Thumbnail).max_dimension ∧
    1 ≤ (resampleDims 4000 3000 (tierPolicy .Thumbnail).max_dimension).1 ∧
    1 ≤ (resampleDims 4000 3000 (tierPolicy .Thumbnail).max_dimension).2 ∧
    (3000 ≤ 4000 →
      ((resampleDims 4000 3000 (tierPolicy .Thumbnail).max_dimension).2 : Int) * 4000
          - 3000 * (tierPolicy .Thumbnail).max_dimension ≤ 4000 ∧
      ((3000 : Int) * (tierPolicy .Thumbnail).max_dimension)
          - (resampleDims 4000 3000 (tierPolicy .Thumbnail).max_dimension).2 * 4000 ≤ 4000) ∧
    (4000 < 3000 →
      ((resampleDims 4000 3000 (tierPolicy .Thumbnail).max_dimension).1 : Int) * 3000
          - 4000 * (tierPolicy .Thumbnail).max_dimension ≤ 3000 ∧
      ((4000 : Int) * (tierPolicy .Thumbnail).max_dimension)
          - (resampleDims 4000 3000 (tierPolicy .Thumbnail).max_dimension).1 * 3000 ≤ 3000)) :=
  ⟨by decide, by decide, resample_dims_spec 4000 3000 .Thumbnail (by decide) (by decide)⟩

/-! ## C1: monotone output-size ordering across tiers -/

/-- Modelled from the spec: the encoder is excluded from the core (section 1:
"this spec does not prescribe a specific image codec implementation"), and
the spec derives the size ordering "by construction" from the fact that
max_dimension and quality increase monotonically across the tier order
(section 3).  We therefore parametrise over any size model
`f width height quality` that is monotone in the pixel dimensions and
strictly monotone in the encode quality, and model a tier's output byte
length as `f` applied to the tier's resampled dimensions and encode quality.
The Blur tier's extra blur stage does not change dimensions (section 4.3:
the blur input is "already at its tier's target dimension"). -/
def outputSize (f : Nat → Nat → Nat → Nat) (w h : Nat) (tier : Tier) : Nat :=
  f (resampleDims w h (tierPolicy tier).max_dimension).1
    (resampleDims w h (tierPolicy tier).max_dimension).2
    (tierPolicy tier).target_encode_quality

/-- Modelled from the spec: the input ("Original") is the source image at its
own dimensions and full quality, the top of the spec's size order
"Thumbnail < Blur < LowQuality < Original" (section 3). -/
def originalSize (f : Nat → Nat → Nat → Nat) (w h : Nat) : Nat := f w h 100

/-- C1: for every supported input image (positive dimensions, large enough
that every tier is a downscale, i.e. `LOW_QUALITY_MAX_WIDTH ≤ max w h`), and
for every byte-size model monotone in the output dimensions and strictly
monotone in the encode quality, the Thumbnail output is strictly smaller than
the Blur output, which is strictly smaller than the LowQuality output, which
is strictly smaller than the input. -/
theorem output_size_strict_mono (f : Nat → Nat → Nat → Nat)
    (hf : ∀ w h q w₂ h₂ q₂, w ≤ w₂ → h ≤ h₂ → q < q₂ → f w h q < f w₂ h₂ q₂)
    (w h : Nat) (hw : 0 < w) (hh : 0 < h) (hbig : LOW_QUALITY_MAX_WIDTH ≤ max w h) :
    outputSize f w h .Thumbnail < outputSize f w h .Blur ∧
    outputSize f w h .Blur < outputSize f w h .LowQuality ∧
    outputSize f w h .LowQuality < originalSize f w h := by
  have htb := resampleDims_mono w h
    (tierPolicy .Thumbnail).max_dimension (tierPolicy .Blur).max_dimension (by decide)
  have hbl := resampleDims_mono w h
    (tierPolicy .Blur).max_dimension (tierPolicy .LowQuality).max_dimension (by decide)
  have hli := resampleDims_le_input w h (tierPolicy .LowQuality).max_dimension hw hh hbig
  refine ⟨hf _ _ _ _ _ _ htb.1 htb.2 (by decide), hf _ _ _ _ _ _ hbl.1 hbl.2 (by decide),
    hf _ _ _ _ _ _ hli.1 hli.2 (by decide)⟩

/-- Witness for C1: the size model `(w+1)*(h+1)*(q+1)` is monotone in the
dimensions and strictly monotone in the quality, and a 4000x3000 source is a
downscale at every tier. -/
theorem output_size_strict_mono_witness :
    (∀ w h q w₂ h₂ q₂ : Nat, w ≤ w₂ → h ≤ h₂ → q < q₂ →
      (w + 1) * (h + 1) * (q + 1) < (w₂ + 1) * (h₂ + 1) * (q₂ + 1)) ∧
    0 < 4000 ∧ 0 < 3000 ∧ LOW_QUALITY_MAX_WIDTH ≤ max 4000 3000 ∧
    (outputSize (fun w h q => (w + 1) * (h + 1) * (q + 1)) 4000 3000 .Thumbnail
        < outputSize (fun w h q => (w + 1) * (h + 1) * (q + 1)) 4000 3000 .Blur ∧
      outputSize (fun w h q => (w + 1) * (h + 1) * (q + 1)) 4000 3000 .Blur
        < outputSize (fun w h q => (w + 1) * (h + 1) * (q + 1)) 4000 3000 .LowQuality ∧
      outputSize (fun w h q => (w + 1) * (h + 1) * (q + 1)) 4000 3000 .LowQuality
        < originalSize (fun w h q => (w + 1) * (h + 1) * (q + 1)) 4000 3000) := by
  have hf : ∀ w h q w₂ h₂ q₂ : Nat, w ≤ w₂ → h ≤ h₂ → q < q₂ →
      (w + 1) * (h + 1) * (q + 1) < (w₂ + 1) * (h₂ + 1) * (q₂ + 1) := by
    intro w h q w₂ h₂ q₂ h1 h2 h3
    have hw1 : 0 < w + 1 := Nat.succ_pos w
    have hh1 : 0 < h + 1 := Nat.succ_pos h
    calc (w + 1) * (h + 1) * (q + 1) ≤ (w₂ + 1) * (h₂ + 1) * (q + 1) :=
          Nat.mul_le_mul (Nat.mul_le_mul (by omega) (by omega)) (Nat.le_refl _)
      _ < (w₂ + 1) * (h₂ + 1) * (q₂ + 1) :=
          Nat.mul_lt_mul_of_le_of_lt (Nat.le_refl _) (by omega) (by positivity)
  exact ⟨hf, by decide, by decide, by decide,
    output_size_strict_mono (fun w h q => (w + 1) * (h + 1) * (q + 1)) hf 4000 3000
      (by decide) (by decide) (by decide)⟩

/-! ## Raw images and the separable Gaussian blur -/

/-- A raw-pixel image: width, height, and a row-major list of pixel values
(spec section 3, "Image Buffer"; a well-formed image has
`pixels.length = h * w`). -/
structure RawImage where
  w : Nat
  h : Nat
  pixels : List Nat
deriving DecidableEq

/-- Clamp-to-edge index addressing: any (possibly negative) coordinate is
clamped into `[0, n-1]`. -/
def clampIdx (n : Nat) (i : Int) : Nat := (max 0 (min ((n : Int) - 1) i)).toNat

/-- Read the pixel at column `x`, row `y` of a row-major image. -/
def readPx (img : RawImage) (x y : Nat) : Nat := img.pixels.getD (y * img.w + x) 0

/-- Modelled from the spec: the Gaussian weights themselves are not fixed by
the spec (section 4.3 asks only for a normalized Gaussian); we use the
standard binomial approximation `choose (2r) k`, whose weights sum to
`2^(2r)`. -/
def gaussWeight (r k : Nat) : Nat := (2 * r).choose k

/-- The normalization constant of the blur kernel: the sum of the weights. -/
def gaussNorm (r : Nat) : Nat := 2 ^ (2 * r)

/-- The buffer index read by the horizontal blur pass for output pixel
`(x, y)` and tap `k ∈ [0, 2r]`: clamp-to-edge on the x axis. -/
def hReadIdx (img : RawImage) (r x y k : Nat) : Nat :=
  y * img.w + clampIdx img.w ((x : Int) + k - r)

/-- The buffer index read by the vertical blur pass for output pixel
`(x, y)` and tap `k ∈ [0, 2r]`: clamp-to-edge on the y axis. -/
def vReadIdx (img : RawImage) (r x y k : Nat) : Nat :=
  clampIdx img.h ((y : Int) + k - r) * img.w + x

/-- Modelled from the spec: one output pixel of the horizontal pass of the
separable Gaussian blur (section 4.3): a normalized weighted sum of the
clamp-to-edge row neighborhood, with round-to-nearest division. -/
def hblurPixel (img : RawImage) (r x y : Nat) : Nat :=
  ((∑ k in Finset.range (2 * r + 1), gaussWeight r k * img.pixels.getD (hReadIdx img r x y k) 0)
    + gaussNorm r / 2) / gaussNorm r

/-- Modelled from the spec: one output pixel of the vertical pass. -/
def vblurPixel (img : RawImage) (r x y : Nat) : Nat :=
  ((∑ k in Finset.range (2 * r + 1), gaussWeight r k * img.pixels.getD (vReadIdx img r x y k) 0)
    + gaussNorm r / 2) / gaussNorm r

/-- Horizontal blur pass over the whole image (allocates a fresh pixel
list; dimensions unchanged). -/
def hblur (img : RawImage) (r : Nat) : RawImage :=
  ⟨img.w, img.h,
    (List.range (img.h * img.w)).map (fun i => hblurPixel img r (i % img.w) (i / img.w))⟩

/-- Vertical blur pass over the whole image. -/
def vblur (img : RawImage) (r : Nat) : RawImage :=
  ⟨img.w, img.h,
    (List.range (img.h * img.w)).map (fun i => vblurPixel img r (i % img.w) (i / img.w))⟩

/-- Modelled from the spec: the separable Gaussian blur, horizontal pass then
vertical pass (section 4.3). -/
def blur2D (img : RawImage) (r : Nat) : RawImage := vblur (hblur img r) r

/-- A uniform-color (flat) image. -/
def uniformImg (w h v : Nat) : RawImage := ⟨w, h, List.replicate (h * w) v⟩

theorem clampIdx_lt (n : Nat) (i : Int) (hn : 0 < n) : clampIdx n i < n := by
  unfold clampIdx
  omega

theorem rowIdx_lt (y c w h : Nat) (hc : c < w) (hy : y < h) : y * w + c < h * w :=
  calc y * w + c < y * w + w := by omega
    _ = (y + 1) * w := by ring
    _ ≤ h * w := Nat.mul_le_mul_right w hy

theorem gauss_sum (r : Nat) : (∑ k in Finset.range (2 * r + 1), gaussWeight r k) = gaussNorm r :=
  Nat.sum_range_choose (2 * r)

theorem gaussNorm_pos (r : Nat) : 0 < gaussNorm r := Nat.pos_pow_of_pos _ (by omega)

theorem replicate_getD (n v i : Nat) (hi : i < n) : (List.replicate n v).getD i 0 = v := by
  rw [List.getD_eq_getElem _ _ (by simpa using hi)]
  exact List.getElem_replicate _ _

theorem hblurPixel_uniform (w h v r x y : Nat) (hw : 0 < w) (hh : 0 < h) (hy : y < h) :
    hblurPixel (uniformImg w h v) r x y = v := by
  unfold hblurPixel
  have hread : ∀ k : Nat,
      (uniformImg w h v).pixels.getD (hReadIdx (uniformImg w h v) r x y k) 0 = v := by
    intro k
    apply replicate_getD
    exact rowIdx_lt _ _ _ _ (clampIdx_lt _ _ hw) hy
  calc ((∑ k in Finset.range (2 * r + 1),
          gaussWeight r k * (uniformImg w h v).pixels.getD (hReadIdx (uniformImg w h v) r x y k) 0)
        + gaussNorm r / 2) / gaussNorm r
      = ((∑ k in Finset.range (2 * r + 1), gaussWeight r k * v) + gaussNorm r / 2) / gaussNorm r := by
        rw [Finset.sum_congr rfl (fun k _ => by rw [hread k])]
    _ = (gaussNorm r * v + gaussNorm r / 2) / gaussNorm r := by
        rw [← Finset.sum_mul, gauss_sum, Nat.mul_comm]
    _ = v := by
        rw [Nat.mul_add_div (gaussNorm_pos r),
          Nat.div_eq_of_lt (Nat.div_lt_self (gaussNorm_pos r) (by omega))]
        omega

theorem vblurPixel_uniform (w h v r x y : Nat) (hw : 0 < w) (hh : 0 < h) (hx : x < w) :
    vblurPixel (uniformImg w h v) r x y = v := by
  unfold vblurPixel
  have hread : ∀ k : Nat,
      (uniformImg w h v).pixels.getD (vReadIdx (uniformImg w h v) r x y k) 0 = v := by
    intro k
    apply replicate_getD
    exact rowIdx_lt _ _ _ _ hx (clampIdx_lt _ _ hh)
  calc ((∑ k in Finset.range (2 * r + 1),
          gaussWeight r k * (uniformImg w h v).pixels.getD (vReadIdx (uniformImg w h v) r x y k) 0)
        + gaussNorm r / 2) / gaussNorm r
      = ((∑ k in Finset.range (2 * r + 1), gaussWeight r k * v) + gaussNorm r / 2) / gaussNorm r := by
        rw [Finset.sum_congr rfl (fun k _ => by rw [hread k])]
    _ = (gaussNorm r * v + gaussNorm r / 2) / gaussNorm r := by
        rw [← Finset.sum_mul, gauss_sum, Nat.mul_comm]
    _ = v := by
        rw [Nat.mul_add_div (gaussNorm_pos r),
          Nat.div_eq_of_lt (Nat.div_lt_self (gaussNorm_pos r) (by omega))]
        omega

theorem hblur_uniform (w h v r : Nat) (hw : 0 < w) (hh : 0 < h) :
    hblur (uniformImg w h v) r = uniformImg w h v := by
  unfold hblur uniformImg
  refine congrArg (RawImage.mk w h) ?_
  refine List.eq_replicate_iff.mpr ⟨by simp, ?_⟩
  intro b hb
  simp only [List.mem_map, List.mem_range] at hb
  obtain ⟨i, hi, rfl⟩ := hb
  exact hblurPixel_uniform w h v r (i % w) (i / w) hw hh
    ((Nat.div_lt_iff_lt_mul hw).mpr hi)

theorem vblur_uniform (w h v r : Nat) (hw : 0 < w) (hh : 0 < h) :
    vblur (uniformImg w h v) r = uniformImg w h v := by
  unfold vblur uniformImg
  refine congrArg (RawImage.mk w h) ?_
  refine List.eq_replicate_iff.mpr ⟨by simp, ?_⟩
  intro b hb
  simp only [List.mem_map, List.mem_range] at hb
  obtain ⟨i, hi, rfl⟩ := hb
  exact vblurPixel_uniform w h v r (i % w) (i / w) hw hh (Nat.mod_lt _ hw)

/-- C6: the blur kernel's weights sum to the normalization constant, and as a
consequence applying the separable Gaussian blur to a uniform-color image of
any positive dimensions yields an output identical to the input (for every
radius, including the code's `BLUR_RADIUS`): no edge artifacts on flat
regions. -/
theorem blur_uniform_identity (w h v r : Nat) (hw : 0 < w) (hh : 0 < h) :
    (∑ k in Finset.range (2 * r + 1), gaussWeight r k) = gaussNorm r ∧
    blur2D (uniformImg w h v) r = uniformImg w h v := by
  refine ⟨gauss_sum r, ?_⟩
  unfold blur2D
  rw [hblur_uniform w h v r hw hh, vblur_uniform w h v r hw hh]

/-- Witness for C6: a flat 7x4 image of value 200 blurred at `BLUR_RADIUS`. -/
theorem blur_uniform_identity_witness :
    0 < 7 ∧ 0 < 4 ∧
    ((∑ k in Finset.range (2 * BLUR_RADIUS + 1), gaussWeight BLUR_RADIUS k)
        = gaussNorm BLUR_RADIUS ∧
      blur2D (uniformImg 7 4 200) BLUR_RADIUS = uniformImg 7 4 200) :=
  ⟨by decide, by decide, blur_uniform_identity 7 4 200 BLUR_RADIUS (by decide) (by decide)⟩

/-- C7: the blur kernel uses clamp-to-edge addressing: the clamped index is
always within `[0, n)` for any positive axis length (so no wraparound and no
out-of-bounds access), and consequently every buffer index read by the
horizontal or the vertical pass lies within the pixel buffer of a well-formed
image — including degenerate 1xN and Nx1 images — for any radius. -/
theorem blur_reads_in_bounds (img : RawImage) (r x y k : Nat)
    (hw : 0 < img.w) (hh : 0 < img.h) :
    (∀ n : Nat, ∀ i : Int, 0 < n → clampIdx n i < n) ∧
    (y < img.h → hReadIdx img r x y k < img.h * img.w) ∧
    (x < img.w → vReadIdx img r x y k < img.h * img.w) := by
  refine ⟨fun n i hn => clampIdx_lt n i hn, ?_, ?_⟩
  · intro hy
    exact rowIdx_lt _ _ _ _ (clampIdx_lt _ _ hw) hy
  · intro hx
    exact rowIdx_lt _ _ _ _ hx (clampIdx_lt _ _ hh)

/-- Witness for C7 at a degenerate 1x3 image, radius 5, an edge pixel. -/
theorem blur_reads_in_bounds_witness :
    0 < (uniformImg 1 3 9).w ∧ 0 < (uniformImg 1 3 9).h ∧
    ((∀ n : Nat, ∀ i : Int, 0 < n → clampIdx n i < n) ∧
      (2 < (uniformImg 1 3 9).h →
        hReadIdx (uniformImg 1 3 9) 5 0 2 0 < (uniformImg 1 3 9).h * (uniformImg 1 3 9).w) ∧
      (0 < (uniformImg 1 3 9).w →
        vReadIdx (uniformImg 1 3 9) 5 0 2 0 < (uniformImg 1 3 9).h * (uniformImg 1 3 9).w)) :=
  ⟨by decide, by decide, blur_reads_in_bounds (uniformImg 1 3 9) 5 0 2 0 (by decide) (by decide)⟩

/-! ## Bilinear resample on raw pixels -/

/-- Modelled from the spec: the fixed-point source coordinate of output pixel
`dx` on an axis of source length `n` and output length `m`, under the
standard center-aligned sampling convention `(dx + 1/2) * n/m - 1/2`.  The
exact position is the fraction `((2*dx+1)*n - m) / (2*m)` (truncated at 0 by
Nat subtraction, which clamps positions left of the first pixel center);
returned as (integer part, fractional numerator over `2*m`). -/
def srcCoord (n m dx : Nat) : Nat × Nat :=
  (((2 * dx + 1) * n - m) / (2 * m), ((2 * dx + 1) * n - m) % (2 * m))

/-- Modelled from the spec: one output pixel of the bilinear resample
(section 4.2 requires bilinear or better interpolation).  The four
neighboring source pixels around the source coordinate are combined with
weights proportional to the fractional parts, over the common denominator
`(2*m)*(2*p)`, with round-to-nearest division; neighbor indices are clamped
to the image edge. -/
def bilinearSample (img : RawImage) (m p dx dy : Nat) : Nat :=
  ((2 * m - (srcCoord img.w m dx).2) *
      ((2 * p - (srcCoord img.h p dy).2) *
          readPx img (min (srcCoord img.w m dx).1 (img.w - 1))
            (min (srcCoord img.h p dy).1 (img.h - 1))
        + (srcCoord img.h p dy).2 *
          readPx img (min (srcCoord img.w m dx).1 (img.w - 1))
            (min ((srcCoord img.h p dy).1 + 1) (img.h - 1)))
    + (srcCoord img.w m dx).2 *
      ((2 * p - (srcCoord img.h p dy).2) *
          readPx img (min ((srcCoord img.w m dx).1 + 1) (img.w - 1))
            (min (srcCoord img.h p dy).1 (img.h - 1))
        + (srcCoord img.h p dy).2 *
          readPx img (min ((srcCoord img.w m dx).1 + 1) (img.w - 1))
            (min ((srcCoord img.h p dy).1 + 1) (img.h - 1)))
    + 2 * m * (2 * p) / 2) / (2 * m * (2 * p))

/-- Modelled from the spec: the Resample Kernel on the raw-in/raw-out path
(sections 4.2 and 6(b)): computes the output dimensions with `resampleDims`
and fills a freshly allocated row-major pixel list by bilinear sampling. -/
def resample (img : RawImage) (t : Nat) : RawImage :=
  ⟨(resampleDims img.w img.h t).1, (resampleDims img.w img.h t).2,
    (List.range ((resampleDims img.w img.h t).2 * (resampleDims img.w img.h t).1)).map
      (fun i => bilinearSample img (resampleDims img.w img.h t).1
        (resampleDims img.w img.h t).2
        (i % (resampleDims img.w img.h t).1) (i / (resampleDims img.w img.h t).1))⟩

theorem srcCoord_self (n dx : Nat) (hn : 0 < n) : srcCoord n n dx = (dx, 0) := by
  unfold srcCoord
  have h1 : (2 * dx + 1) * n - n = dx * (2 * n) := by
    have : (2 * dx + 1) * n = dx * (2 * n) + n := by ring
    omega
  rw [h1, Nat.mul_div_cancel _ (by omega), Nat.mul_mod_left]

theorem bilinearSample_self (img : RawImage) (dx dy : Nat)
    (hdx : dx < img.w) (hdy : dy < img.h) :
    bilinearSample img img.w img.h dx dy = readPx img dx dy := by
  unfold bilinearSample
  rw [srcCoord_self _ dx (by omega), srcCoord_self _ dy (by omega)]
  have hx0 : min dx (img.w - 1) = dx := min_eq_left (by omega)
  have hy0 : min dy (img.h - 1) = dy := min_eq_left (by omega)
  simp only [hx0, hy0, Nat.sub_zero, Nat.mul_zero, Nat.zero_mul, Nat.add_zero]
  have hpos : 0 < 2 * img.w * (2 * img.h) :=
    Nat.mul_pos (by omega) (by omega)
  have hassoc : 2 * img.w * (2 * img.h * readPx img dx dy)
      = 2 * img.w * (2 * img.h) * readPx img dx dy := by ring
  rw [hassoc, Nat.mul_add_div hpos,
    Nat.div_eq_of_lt (Nat.div_lt_self hpos (by omega))]
  omega

/-- Resampling an already-at-target image (its larger axis equal to the
target) is the identity on well-formed images. -/
theorem resample_at_target (img : RawImage) (hw : 0 < img.w) (hh : 0 < img.h)
    (hlen : img.pixels.length = img.h * img.w) :
    resample img (max img.w img.h) = img := by
  have hd : resampleDims img.w img.h (max img.w img.h) = (img.w, img.h) := by
    unfold resampleDims
    split
    · rename_i hle
      rw [max_eq_left hle, roundDiv_mul_self img.h img.w hw]
      have : max 1 img.h = img.h := max_eq_right hh
      rw [this]
    · rename_i hgt
      rw [max_eq_right (by omega : img.w ≤ img.h), roundDiv_mul_self img.w img.h hh]
      have : max 1 img.w = img.w := max_eq_right hw
      rw [this]
  obtain ⟨w0, h0, px⟩ := img
  simp only at hd hw hh hlen
  unfold resample
  simp only [hd]
  refine congrArg (RawImage.mk w0 h0) ?_
  refine List.ext_getElem (by simpa using hlen.symm) ?_
  intro i hi1 hi2
  have hiw : i < h0 * w0 := by simpa using hi1
  rw [List.getElem_map, List.getElem_range]
  have hxx : i % w0 < w0 := Nat.mod_lt _ hw
  have hyy : i / w0 < h0 := (Nat.div_lt_iff_lt_mul hw).mpr hiw
  rw [bilinearSample_self ⟨w0, h0, px⟩ (i % w0) (i / w0) hxx hyy]
  unfold readPx
  simp only
  have hidx : i / w0 * w0 + i % w0 = i := by
    rw [Nat.mul_comm (i / w0) w0]
    exact Nat.div_add_mod i w0
  rw [hidx, List.getD_eq_getElem _ _ (by omega)]

/-- C8: on the raw-in/raw-out path, feeding the output of the Resample stage
back through Resample with the same target dimension is a no-op: the second
output equals the first pixel-for-pixel, with the same width and height
(structure equality). -/
theorem resample_roundtrip (img : RawImage) (t : Nat) (hw : 0 < img.w)
    (hh : 0 < img.h) (ht : 1 ≤ t) :
    resample (resample img t) t = resample img t := by
  have h1 : 0 < (resample img t).w := (resampleDims_pos img.w img.h t ht).1
  have h2 : 0 < (resample img t).h := (resampleDims_pos img.w img.h t ht).2
  have hmax : max (resample img t).w (resample img t).h = t := by
    have := resampleDims_max img.w img.h t hw hh ht
    exact this
  have hlen : (resample img t).pixels.length = (resample img t).h * (resample img t).w := by
    simp [resample]
  have hid := resample_at_target (resample img t) h1 h2 hlen
  rw [hmax] at hid
  exact hid

/-- Witness for C8: a concrete 3x2 image resampled to target 2, twice. -/
theorem resample_roundtrip_witness :
    0 < (RawImage.mk 3 2 [10, 20, 30, 40, 50, 60]).w ∧
    0 < (RawImage.mk 3 2 [10, 20, 30, 40, 50, 60]).h ∧ 1 ≤ 2 ∧
    resample (resample (RawImage.mk 3 2 [10, 20, 30, 40, 50, 60]) 2) 2
      = resample (RawImage.mk 3 2 [10, 20, 30, 40, 50, 60]) 2 :=
  ⟨by decide, by decide, by decide,
    resample_roundtrip (RawImage.mk 3 2 [10, 20, 30, 40, 50, 60]) 2
      (by decide) (by decide) (by decide)⟩

/-! ## Device context, allocation protocol, and the tier pipeline -/

/-- Per-call error taxonomy (spec sections 4.4 and 7): decode failure, device
failure, invalid raw dimensions, and the initialization-state error raised
when a tier operation runs before a successful initialize. -/
inductive PErr
  | DecodeError
  | DeviceError
  | InvalidDimensions
  | NotInitialized
deriving DecidableEq

/-- Failure modes of device runtime acquisition (spec section 4.1). -/
inductive InitFailure
  | NoDevice
  | DriverMismatch
  | OutOfMemory
deriving DecidableEq

/-- The device context seen by a call: whether the runtime is initialized,
and — as an environment oracle standing for the device's nondeterminism —
which allocation attempt of the call, if any, fails with a device error. -/
structure DeviceEnv where
  initialized : Bool
  allocFailAt : Option Nat
deriving DecidableEq

/-- Modelled from the spec: `cuda_init` (header lines 32-34: "Returns: 0 on
success, non-zero error code on failure"; spec section 4.1: the status
distinguishes success from no-device, driver/runtime mismatch and
out-of-memory).  The argument is the environment's outcome of device
acquisition. -/
def cuda_init (f : Option InitFailure) : Nat × DeviceEnv :=
  match f with
  | none => (0, ⟨true, none⟩)
  | some .NoDevice => (1, ⟨false, none⟩)
  | some .DriverMismatch => (2, ⟨false, none⟩)
  | some .OutOfMemory => (3, ⟨false, none⟩)

/-- A call's input: the registry id of the caller-owned input buffer, and the
result of the externally modelled decode step (`none` for malformed
compressed bytes; otherwise raw width, height and pixels).  The codec itself
is outside the core (spec section 1), so it is represented by its result. -/
structure CallInput where
  bufId : Nat
  decoded : Option (Nat × Nat × List Nat)
deriving DecidableEq

/-- The buffer registry: a fresh-id counter and the list of live buffer
ids (caller-owned input buffers and pipeline-allocated buffers alike). -/
structure AllocState where
  next : Nat
  live : List Nat
deriving DecidableEq

/-- Allocate a fresh buffer: returns its id and the updated registry. -/
def alloc (s : AllocState) : Nat × AllocState := (s.next, ⟨s.next + 1, s.next :: s.live⟩)

/-- Release a buffer (the single release path, `cuda_free`). -/
def freeBuf (i : Nat) (s : AllocState) : AllocState := ⟨s.next, s.live.erase i⟩

/-- An output buffer handed to the caller: its registry id and byte
length. -/
structure OutBuf where
  id : Nat
  len : Nat
deriving DecidableEq

/-- Modelled from the spec: the byte length of the on-device encode of a
`w × h` image at quality `q`.  The codec is out of scope; the model only
needs the length to be determined by dimensions and quality and to be
positive for positive dimensions (spec section 7: never a zero-length
buffer tagged as success). -/
def encLen (w h q : Nat) : Nat := w * h * (q + 1)

/-- Modelled from the spec: one tier operation of the Quality-Tier Pipeline
(header lines 42-56, spec section 4.4): initialization check (section 4.1:
fails fast before any device work), decode (DecodeError on malformed bytes),
dimension validation (InvalidDimensions before any device work), then
resample buffer allocation, blur buffer allocation when the tier's radius is
nonzero, and encode buffer allocation.  Allocation attempts are numbered in
order; `env.allocFailAt` names the attempt that fails with DeviceError, and
on every failure exit the intermediate buffers already allocated are freed.
On success only the encode buffer remains allocated; it is returned with its
byte length. -/
def processTier (env : DeviceEnv) (inp : CallInput) (tier : Tier) (s : AllocState) :
    Except PErr OutBuf × AllocState :=
  if env.initialized = false then (.error .NotInitialized, s) else
  match inp.decoded with
  | none => (.error .DecodeError, s)
  | some (w, h, px) =>
    if w = 0 ∨ h = 0 ∨ px.length ≠ h * w then (.error .InvalidDimensions, s) else
    if env.allocFailAt = some 0 then (.error .DeviceError, s) else
    if env.allocFailAt = some 1 then (.error .DeviceError, freeBuf (alloc s).1 (alloc s).2) else
    if (tierPolicy tier).blur_radius = 0 then
      (.ok ⟨(alloc (alloc s).2).1,
          encLen (resampleDims w h (tierPolicy tier).max_dimension).1
            (resampleDims w h (tierPolicy tier).max_dimension).2
            (tierPolicy tier).target_encode_quality⟩,
        freeBuf (alloc s).1 (alloc (alloc s).2).2)
    else
      if env.allocFailAt = some 2 then
        (.error .DeviceError,
          freeBuf (alloc (alloc s).2).1 (freeBuf (alloc s).1 (alloc (alloc s).2).2))
      else
        (.ok ⟨(alloc (alloc (alloc s).2).2).1,
            encLen (resampleDims w h (tierPolicy tier).max_dimension).1
              (resampleDims w h (tierPolicy tier).max_dimension).2
              (tierPolicy tier).target_encode_quality⟩,
          freeBuf (alloc (alloc s).2).1
            (freeBuf (alloc s).1 (alloc (alloc (alloc s).2).2).2))

/-- Modelled from the spec: the public C interface of a tier operation
(header lines 42-56): the returned pointer is the only failure indicator — a
null pointer (`none`) on failure, otherwise the encoded bytes with
`*output_size` set to the byte length. -/
def cuda_process (tier : Tier) (env : DeviceEnv) (inp : CallInput) (s : AllocState) :
    Option (Nat × Nat) × AllocState :=
  match processTier env inp tier s with
  | (.ok b, s₂) => (some (b.id, b.len), s₂)
  | (.error _, s₂) => (none, s₂)

/-- `cuda_process_thumbnail` (header line 48). -/
def cuda_process_thumbnail (env : DeviceEnv) (inp : CallInput) (s : AllocState) :
    Option (Nat × Nat) × AllocState := cuda_process .Thumbnail env inp s

/-- `cuda_process_blur` (header line 52). -/
def cuda_process_blur (env : DeviceEnv) (inp : CallInput) (s : AllocState) :
    Option (Nat × Nat) × AllocState := cuda_process .Blur env inp s

/-- `cuda_process_low_quality` (header line 56). -/
def cuda_process_low_quality (env : DeviceEnv) (inp : CallInput) (s : AllocState) :
    Option (Nat × Nat) × AllocState := cuda_process .LowQuality env inp s

theorem erase_second (m n : Nat) (l : List Nat) (h : m ≠ n) :
    (m :: n :: l).erase n = m :: l := by
  rw [List.erase_cons_tail (by simpa using h), List.erase_cons_head]

theorem erase_third (m k n : Nat) (l : List Nat) (h1 : m ≠ n) (h2 : k ≠ n) :
    (m :: k :: n :: l).erase n = m :: k :: l := by
  rw [List.erase_cons_tail (by simpa using h1), erase_second k n l h2]

theorem processTier_uninit (env : DeviceEnv) (inp : CallInput) (tier : Tier)
    (s : AllocState) (h : env.initialized = false) :
    processTier env inp tier s = (.error .NotInitialized, s) := by
  unfold processTier
  rw [if_pos h]

theorem processTier_decode_fail (env : DeviceEnv) (inp : CallInput) (tier : Tier)
    (s : AllocState) (h1 : env.initialized = true) (h2 : inp.decoded = none) :
    processTier env inp tier s = (.error .DecodeError, s) := by
  unfold processTier
  rw [if_neg (by simp [h1]), h2]

theorem processTier_bad_dims (env : DeviceEnv) (inp : CallInput) (tier : Tier)
    (s : AllocState) (w h : Nat) (px : List Nat) (h1 : env.initialized = true)
    (h2 : inp.decoded = some (w, h, px)) (h3 : w = 0 ∨ h = 0 ∨ px.length ≠ h * w) :
    processTier env inp tier s = (.error .InvalidDimensions, s) := by
  unfold processTier
  rw [if_neg (by simp [h1]), h2]
  simp only
  rw [if_pos h3]

theorem processTier_dev_fail0 (env : DeviceEnv) (inp : CallInput) (tier : Tier)
    (s : AllocState) (w h : Nat) (px : List Nat) (h1 : env.initialized = true)
    (h2 : inp.decoded = some (w, h, px)) (h3 : ¬(w = 0 ∨ h = 0 ∨ px.length ≠ h * w))
    (h4 : env.allocFailAt = some 0) :
    processTier env inp tier s = (.error .DeviceError, s) := by
  unfold processTier
  rw [if_neg (by simp [h1]), h2]
  simp only
  rw [if_neg h3, if_pos h4]

theorem processTier_dev_fail1 (env : DeviceEnv) (inp : CallInput) (tier : Tier)
    (s : AllocState) (w h : Nat) (px : List Nat) (h1 : env.initialized = true)
    (h2 : inp.decoded = some (w, h, px)) (h3 : ¬(w = 0 ∨ h = 0 ∨ px.length ≠ h * w))
    (h4 : env.allocFailAt ≠ some 0) (h5 : env.allocFailAt = some 1) :
    processTier env inp tier s = (.error .DeviceError, ⟨s.next + 1, s.live⟩) := by
  unfold processTier
  rw [if_neg (by simp [h1]), h2]
  simp only
  rw [if_neg h3, if_neg h4, if_pos h5]
  unfold alloc freeBuf
  simp only [List.erase_cons_head]

theorem processTier_ok_noblur (env : DeviceEnv) (inp : CallInput) (tier : Tier)
    (s : AllocState) (w h : Nat) (px : List Nat) (h1 : env.initialized = true)
    (h2 : inp.decoded = some (w, h, px)) (h3 : ¬(w = 0 ∨ h = 0 ∨ px.length ≠ h * w))
    (h4 : env.allocFailAt ≠ some 0) (h5 : env.allocFailAt ≠ some 1)
    (h6 : (tierPolicy tier).blur_radius = 0) :
    processTier env inp tier s =
      (.ok ⟨s.next + 1,
          encLen (resampleDims w h (tierPolicy tier).max_dimension).1
            (resampleDims w h (tierPolicy tier).max_dimension).2
            (tierPolicy tier).target_encode_quality⟩,
        ⟨s.next + 2, (s.next + 1) :: s.live⟩) := by
  unfold processTier
  rw [if_neg (by simp [h1]), h2]
  simp only
  rw [if_neg h3, if_neg h4, if_neg h5, if_pos h6]
  unfold alloc freeBuf
  simp only
  rw [erase_second _ _ _ (by omega)]

theorem processTier_dev_fail2 (env : DeviceEnv) (inp : CallInput) (tier : Tier)
    (s : AllocState) (w h : Nat) (px : List Nat) (h1 : env.initialized = true)
    (h2 : inp.decoded = some (w, h, px)) (h3 : ¬(w = 0 ∨ h = 0 ∨ px.length ≠ h * w))
    (h4 : env.allocFailAt ≠ some 0) (h5 : env.allocFailAt ≠ some 1)
    (h6 : (tierPolicy tier).blur_radius ≠ 0) (h7 : env.allocFailAt = some 2) :
    processTier env inp tier s = (.error .DeviceError, ⟨s.next + 2, s.live⟩) := by
  unfold processTier
  rw [if_neg (by simp [h1]), h2]
  simp only
  rw [if_neg h3, if_neg h4, if_neg h5, if_neg h6, if_pos h7]
  unfold alloc freeBuf
  simp only
  rw [erase_second _ _ _ (by omega), List.erase_cons_head]

theorem processTier_ok_blur (env : DeviceEnv) (inp : CallInput) (tier : Tier)
    (s : AllocState) (w h : Nat) (px : List Nat) (h1 : env.initialized = true)
    (h2 : inp.decoded = some (w, h, px)) (h3 : ¬(w = 0 ∨ h = 0 ∨ px.length ≠ h * w))
    (h4 : env.allocFailAt ≠ some 0) (h5 : env.allocFailAt ≠ some 1)
    (h6 : (tierPolicy tier).blur_radius ≠ 0) (h7 : env.allocFailAt ≠ some 2) :
    processTier env inp tier s =
      (.ok ⟨s.next + 2,
          encLen (resampleDims w h (tierPolicy tier).max_dimension).1
            (resampleDims w h (tierPolicy tier).max_dimension).2
            (tierPolicy tier).target_encode_quality⟩,
        ⟨s.next + 3, (s.next + 2) :: s.live⟩) := by
  unfold processTier
  rw [if_neg (by simp [h1]), h2]
  simp only
  rw [if_neg h3, if_neg h4, if_neg h5, if_neg h6, if_neg h7]
  unfold alloc freeBuf
  simp only
  rw [erase_third _ _ _ _ (by omega) (by omega), erase_second _ _ _ (by omega)]

/-- Full result/state characterization of a tier call, by cases on the exit
path. -/
theorem processTier_spec (env : DeviceEnv) (inp : CallInput) (tier : Tier) (s : AllocState) :
    (∀ e s₂, processTier env inp tier s = (.error e, s₂) →
      s₂.live = s.live ∧ (env.initialized = true →
        (e = .DecodeError ∨ e = .DeviceError ∨ e = .InvalidDimensions))) ∧
    (∀ b s₂, processTier env inp tier s = (.ok b, s₂) →
      0 < b.len ∧ s₂.live = b.id :: s.live ∧ s.next ≤ b.id) := by
  have ht : 1 ≤ (tierPolicy tier).max_dimension := by cases tier <;> decide
  by_cases h1 : env.initialized = false
  · constructor
    · intro e s₂ hres
      rw [processTier_uninit env inp tier s h1] at hres
      injection hres with ha hb
      injection ha with hc
      subst hb
      refine ⟨rfl, fun hinit => ?_⟩
      rw [h1] at hinit
      exact absurd hinit (by decide)
    · intro b s₂ hres
      rw [processTier_uninit env inp tier s h1] at hres
      injection hres with ha hb
      exact Except.noConfusion ha
  · have h1x : env.initialized = true := by
      revert h1
      cases env.initialized <;> simp
    rcases hdec : inp.decoded with _ | ⟨w, h, px⟩
    · constructor
      · intro e s₂ hres
        rw [processTier_decode_fail env inp tier s h1x hdec] at hres
        injection hres with ha hb
        injection ha with hc
        subst hb
        exact ⟨rfl, fun _ => Or.inl hc.symm⟩
      · intro b s₂ hres
        rw [processTier_decode_fail env inp tier s h1x hdec] at hres
        injection hres with ha hb
        exact Except.noConfusion ha
    · have hpos : 0 < encLen (resampleDims w h (tierPolicy tier).max_dimension).1
          (resampleDims w h (tierPolicy tier).max_dimension).2
          (tierPolicy tier).target_encode_quality := by
        have := resampleDims_pos w h (tierPolicy tier).max_dimension ht
        unfold encLen
        exact Nat.mul_pos (Nat.mul_pos (by omega) (by omega)) (by omega)
      by_cases h3 : w = 0 ∨ h = 0 ∨ px.length ≠ h * w
      · constructor
        · intro e s₂ hres
          rw [processTier_bad_dims env inp tier s w h px h1x hdec h3] at hres
          injection hres with ha hb
          injection ha with hc
          subst hb
          exact ⟨rfl, fun _ => Or.inr (Or.inr hc.symm)⟩
        · intro b s₂ hres
          rw [processTier_bad_dims env inp tier s w h px h1x hdec h3] at hres
          injection hres with ha hb
          exact Except.noConfusion ha
      · by_cases h4 : env.allocFailAt = some 0
        · constructor
          · intro e s₂ hres
            rw [processTier_dev_fail0 env inp tier s w h px h1x hdec h3 h4] at hres
            injection hres with ha hb
            injection ha with hc
            subst hb
            exact ⟨rfl, fun _ => Or.inr (Or.inl hc.symm)⟩
          · intro b s₂ hres
            rw [processTier_dev_fail0 env inp tier s w h px h1x hdec h3 h4] at hres
            injection hres with ha hb
            exact Except.noConfusion ha
        · by_cases h5 : env.allocFailAt = some 1
          · constructor
            · intro e s₂ hres
              rw [processTier_dev_fail1 env inp tier s w h px h1x hdec h3 h4 h5] at hres
              injection hres with ha hb
              injection ha with hc
              subst hb
              exact ⟨rfl, fun _ => Or.inr (Or.inl hc.symm)⟩
            · intro b s₂ hres
              rw [processTier_dev_fail1 env inp tier s w h px h1x hdec h3 h4 h5] at hres
              injection hres with ha hb
              exact Except.noConfusion ha
          · by_cases h6 : (tierPolicy tier).blur_radius = 0
            · constructor
              · intro e s₂ hres
                rw [processTier_ok_noblur env inp tier s w h px h1x hdec h3 h4 h5 h6] at hres
                injection hres with ha hb
                exact Except.noConfusion ha
              · intro b s₂ hres
                rw [processTier_ok_noblur env inp tier s w h px h1x hdec h3 h4 h5 h6] at hres
                injection hres with ha hb
                injection ha with hc
                subst hb
                subst hc
                refine ⟨hpos, rfl, ?_⟩
                show s.next ≤ s.next + 1
                omega
            · by_cases h7 : env.allocFailAt = some 2
              · constructor
                · intro e s₂ hres
                  rw [processTier_dev_fail2 env inp tier s w h px h1x hdec h3 h4 h5 h6 h7] at hres
                  injection hres with ha hb
                  injection ha with hc
                  subst hb
                  exact ⟨rfl, fun _ => Or.inr (Or.inl hc.symm)⟩
                · intro b s₂ hres
                  rw [processTier_dev_fail2 env inp tier s w h px h1x hdec h3 h4 h5 h6 h7] at hres
                  injection hres with ha hb
                  exact Except.noConfusion ha
              · constructor
                · intro e s₂ hres
                  rw [processTier_ok_blur env inp tier s w h px h1x hdec h3 h4 h5 h6 h7] at hres
                  injection hres with ha hb
                  exact Except.noConfusion ha
                · intro b s₂ hres
                  rw [processTier_ok_blur env inp tier s w h px h1x hdec h3 h4 h5 h6 h7] at hres
                  injection hres with ha hb
                  injection ha with hc
                  subst hb
                  subst hc
                  refine ⟨hpos, rfl, ?_⟩
                  show s.next ≤ s.next + 2
                  omega

/-- C4: for every input and every tier operation in an initialized context,
the operation returns either a typed failure (DecodeError, DeviceError or
InvalidDimensions) with the set of live buffers restored exactly to its
pre-call state (every intermediate allocation released before the failure is
reported — nothing leaks), or a fully valid output buffer: positive byte
length, freshly allocated (not previously live), and the only addition to
the live set; never both. -/
theorem processTier_all_or_nothing (env : DeviceEnv) (inp : CallInput) (tier : Tier)
    (s : AllocState) (hinit : env.initialized = true) (hwf : ∀ i ∈ s.live, i < s.next) :
    (∀ e s₂, processTier env inp tier s = (.error e, s₂) →
      (e = .DecodeError ∨ e = .DeviceError ∨ e = .InvalidDimensions) ∧ s₂.live = s.live) ∧
    (∀ b s₂, processTier env inp tier s = (.ok b, s₂) →
      0 < b.len ∧ b.id ∉ s.live ∧ s₂.live = b.id :: s.live) := by
  obtain ⟨he, ho⟩ := processTier_spec env inp tier s
  constructor
  · intro e s₂ hres
    obtain ⟨hl, hcls⟩ := he e s₂ hres
    exact ⟨hcls hinit, hl⟩
  · intro b s₂ hres
    obtain ⟨hlen, hl, hfresh⟩ := ho b s₂ hres
    refine ⟨hlen, fun hmem => ?_, hl⟩
    have := hwf b.id hmem
    omega

/-- Witness for C4: a successful Thumbnail call on a 2x2 raw image, with one
pre-existing live buffer (id 5). -/
theorem processTier_all_or_nothing_witness :
    ((⟨true, none⟩ : DeviceEnv).initialized = true ∧ (∀ i ∈ ([5] : List Nat), i < 6)) ∧
    (0 < encLen 128 128 30 ∧ (7 : Nat) ∉ ([5] : List Nat) ∧ ([7, 5] : List Nat) = 7 :: [5]) :=
  ⟨⟨rfl, by decide⟩,
    (processTier_all_or_nothing ⟨true, none⟩ ⟨5, some (2, 2, [9, 9, 9, 9])⟩ .Thumbnail ⟨6, [5]⟩
      rfl (by decide)).2 ⟨7, encLen 128 128 30⟩ ⟨8, [7, 5]⟩ rfl⟩

/-- C5: a tier operation invoked on an uninitialized device context fails
fast with the initialization-state error and performs no device work (the
registry is returned untouched); `cuda_init` returns 0 exactly on success
(exactly when the resulting context is initialized), and its non-zero codes
distinguish the failure modes. -/
theorem uninitialized_fails_fast (env : DeviceEnv) (inp : CallInput) (tier : Tier)
    (s : AllocState) (f : Option InitFailure) :
    (env.initialized = false → processTier env inp tier s = (.error .NotInitialized, s)) ∧
    ((cuda_init f).1 = 0 ↔ f = none) ∧
    ((cuda_init f).1 = 0 ↔ (cuda_init f).2.initialized = true) ∧
    (∀ g : Option InitFailure, (cuda_init f).1 = (cuda_init g).1 → f = g) := by
  refine ⟨fun hu => processTier_uninit env inp tier s hu, ?_, ?_, ?_⟩
  · rcases f with _ | f0
    · simp [cuda_init]
    · cases f0 <;> simp [cuda_init]
  · rcases f with _ | f0
    · simp [cuda_init]
    · cases f0 <;> simp [cuda_init]
  · intro g hg
    rcases f with _ | f0 <;> rcases g with _ | g0
    · rfl
    · cases g0 <;> simp [cuda_init] at hg
    · cases f0 <;> simp [cuda_init] at hg
    · cases f0 <;> cases g0 <;> simp [cuda_init] at hg <;> rfl

/-- Witness for C5: an uninitialized context rejects a Thumbnail call with
the registry untouched, and `cuda_init` on a successful acquisition returns
code 0 and an initialized context. -/
theorem uninitialized_fails_fast_witness :
    (⟨false, none⟩ : DeviceEnv).initialized = false ∧
    processTier ⟨false, none⟩ ⟨0, none⟩ .Thumbnail ⟨0, []⟩ = (.error .NotInitialized, ⟨0, []⟩) ∧
    ((cuda_init none).1 = 0 ↔ (none : Option InitFailure) = none) ∧
    ((cuda_init none).1 = 0 ↔ (cuda_init none).2.initialized = true) ∧
    (cuda_init none).1 = (cuda_init none).1 ∧
    (none : Option InitFailure) = none :=
  ⟨rfl,
    (uninitialized_fails_fast ⟨false, none⟩ ⟨0, none⟩ .Thumbnail ⟨0, []⟩ none).1 rfl,
    (uninitialized_fails_fast ⟨false, none⟩ ⟨0, none⟩ .Thumbnail ⟨0, []⟩ none).2.1,
    (uninitialized_fails_fast ⟨false, none⟩ ⟨0, none⟩ .Thumbnail ⟨0, []⟩ none).2.2.1,
    rfl,
    (uninitialized_fails_fast ⟨false, none⟩ ⟨0, none⟩ .Thumbnail ⟨0, []⟩ none).2.2.2 none rfl⟩

/-- C9: the caller-owned input buffer is never freed by a tier operation (it
is still live afterwards, whatever the outcome), and on success the returned
output buffer never aliases it (distinct registry ids).  The input pixel
data itself is passed by value and never mutated in this model. -/
theorem input_buffer_preserved (env : DeviceEnv) (inp : CallInput) (tier : Tier)
    (s : AllocState) (hwf : ∀ i ∈ s.live, i < s.next) (hin : inp.bufId ∈ s.live) :
    inp.bufId ∈ (processTier env inp tier s).2.live ∧
    (∀ b s₂, processTier env inp tier s = (.ok b, s₂) → b.id ≠ inp.bufId) := by
  obtain ⟨he, ho⟩ := processTier_spec env inp tier s
  constructor
  · rcases hres : processTier env inp tier s with ⟨res, s₂⟩
    show inp.bufId ∈ s₂.live
    cases res with
    | error e =>
      rw [(he e s₂ hres).1]
      exact hin
    | ok b =>
      rw [(ho b s₂ hres).2.1]
      exact List.mem_cons_of_mem _ hin
  · intro b s₂ hres
    have hfresh := (ho b s₂ hres).2.2
    have hlt := hwf inp.bufId hin
    omega

/-- Witness for C9: a successful Blur call on a 3x1 raw image whose input
buffer has id 2. -/
theorem input_buffer_preserved_witness :
    ((∀ i ∈ ([2] : List Nat), i < 4) ∧ (2 : Nat) ∈ ([2] : List Nat)) ∧
    (2 : Nat) ∈ (processTier ⟨true, none⟩ ⟨2, some (3, 1, [1, 2, 3])⟩ .Blur ⟨4, [2]⟩).2.live ∧
    (6 : Nat) ≠ 2 :=
  ⟨⟨by decide, by decide⟩,
    (input_buffer_preserved ⟨true, none⟩ ⟨2, some (3, 1, [1, 2, 3])⟩ .Blur ⟨4, [2]⟩
      (by decide) (by decide)).1,
    (input_buffer_preserved ⟨true, none⟩ ⟨2, some (3, 1, [1, 2, 3])⟩ .Blur ⟨4, [2]⟩
      (by decide) (by decide)).2 ⟨6, encLen 320 107 50⟩ ⟨7, [6, 2]⟩ rfl⟩

/-- C10: at the public C interface the returned pointer is the only failure
indicator: every typed pipeline error — whichever of them occurred — maps to
the same null return (`none`), so the interface carries no channel
distinguishing DecodeError from DeviceError from InvalidDimensions; on
success the interface returns the buffer (non-null) and sets the output
size to its byte length.  The three header entry points are this interface
at the three tiers. -/
theorem c_interface_null_only_failure (tier : Tier) (env : DeviceEnv) (inp : CallInput)
    (s : AllocState) :
    (∀ e s₂, processTier env inp tier s = (.error e, s₂) →
      (cuda_process tier env inp s).1 = none) ∧
    (∀ b s₂, processTier env inp tier s = (.ok b, s₂) →
      (cuda_process tier env inp s).1 = some (b.id, b.len)) ∧
    cuda_process_thumbnail env inp s = cuda_process .Thumbnail env inp s ∧
    cuda_process_blur env inp s = cuda_process .Blur env inp s ∧
    cuda_process_low_quality env inp s = cuda_process .LowQuality env inp s := by
  refine ⟨?_, ?_, rfl, rfl, rfl⟩
  · intro e s₂ hres
    unfold cuda_process
    rw [hres]
  · intro b s₂ hres
    unfold cuda_process
    rw [hres]

/-- Witness for C10: a malformed-input call maps to a null return. -/
theorem c_interface_null_only_failure_witness :
    processTier ⟨true, none⟩ ⟨0, none⟩ .Thumbnail ⟨0, []⟩ = (.error .DecodeError, ⟨0, []⟩) ∧
    (cuda_process .Thumbnail ⟨true, none⟩ ⟨0, none⟩ ⟨0, []⟩).1 = none :=
  ⟨rfl,
    (c_interface_null_only_failure .Thumbnail ⟨true, none⟩ ⟨0, none⟩ ⟨0, []⟩).1
      .DecodeError ⟨0, []⟩ rfl⟩

end ImageOps
